import Mathlib

/-!
Verification of the mp4-analyzer-to-json application controller
(`src/App.tsx`, `src/types.ts`).

The controller is a React component holding eight pieces of state
(`videoFile`, `videoUrl`, `analysisResult`, `isLoading`, `loadingMessage`,
`error`, `frameCount`, `extractionProgress`) and two handlers:
`handleFileUpload` and `handleAnalyze`.  We embed the state as a record,
each handler as a function on the record, and the asynchronous external
calls (`extractFramesFromVideo`, `analyzeVideoFrames`) as an environment
supplying their outcomes.  `handleAnalyze` is embedded twice over the same
environment: as the list of intermediate states produced by each state
update in program order (the trace), and as the state after the run.
-/

/-- A key moment of the analysis result (`src/types.ts`). -/
structure KeyMoment where
  timestamp_description : String
  event_summary : String
deriving DecidableEq, Repr

/-- The structured analysis result (`src/types.ts`). -/
structure AnalysisResult where
  title : String
  summary : String
  key_topics : List String
  key_moments : List KeyMoment
deriving DecidableEq, Repr

/-- A browser `File`: the controller reads only its MIME `type`; the name
stands in for the file identity used to derive the preview URL. -/
structure DOMFile where
  name : String
  type : String
deriving DecidableEq, Repr

/-- An extracted frame (base64-encoded image data in the source). -/
abbrev Frame := String

/-- A value thrown by the extraction or analysis call: either a JavaScript
`Error` carrying a message, or any other thrown value. -/
inductive Thrown where
  | error (message : String)
  | other
deriving DecidableEq, Repr

/-- Outcome of an awaited external call: a value, or a thrown fault. -/
inductive Outcome (α : Type) where
  | ok (v : α)
  | exn (e : Thrown)
deriving DecidableEq, Repr

/-- The environment of one `handleAnalyze` run: what the two external
calls would do.  `progressEvents` are the values the extractor passes to
the progress callback, in order, before it resolves. -/
structure Env where
  extraction : Outcome (List Frame)
  progressEvents : List ℚ
  analysis : Outcome AnalysisResult
deriving DecidableEq, Repr

/-- The controller state: one field per `useState` hook of `App`
(`src/App.tsx` lines 15-22). -/
structure ControllerState where
  videoFile : Option DOMFile
  videoUrl : Option String
  analysisResult : Option AnalysisResult
  isLoading : Bool
  loadingMessage : String
  error : Option String
  frameCount : Nat
  extractionProgress : ℚ
deriving DecidableEq, Repr

/-- The initial controller state (the `useState` initialisers). -/
def initState : ControllerState :=
  { videoFile := none, videoUrl := none, analysisResult := none,
    isLoading := false, loadingMessage := "", error := none,
    frameCount := 15, extractionProgress := 0 }

/-- Message set by `handleFileUpload` for a non-video file. -/
def invalidUploadMsg : String := "Please upload a valid video file."

/-- Message set by `handleAnalyze` when no file is selected. -/
def noFileMsg : String := "No video file selected."

/-- Loading message while extracting. -/
def extractingMsg : String := "Extracting key frames from video..."

/-- Loading message while analysing. -/
def analyzingMsg : String := "Sending frames to Gemini for analysis..."

/-- Message of the `Error` thrown when extraction yields zero frames. -/
def zeroFramesMsg : String :=
  "Could not extract any frames from the video. The file might be corrupted or in an unsupported format."

/-- Fallback message when the thrown value is not an `Error`. -/
def unknownErrorMsg : String := "An unknown error occurred during analysis."

/-- Model of the browser API `URL.createObjectURL`: derives a preview URL
from the file. -/
def createObjectURL (f : DOMFile) : String := "blob:" ++ f.name

/-- Model of JavaScript `String.prototype.startsWith`: the candidate is a
prefix of the string's character sequence. -/
def jsStartsWith (s p : String) : Bool := p.data.isPrefixOf s.data

/-- `handleFileUpload` (`src/App.tsx` lines 25-34): a video file is stored
with a fresh preview URL and clears result and error; any other file only
sets the error. -/
def handleFileUpload (f : DOMFile) (s : ControllerState) : ControllerState :=
  if jsStartsWith f.type "video/" then
    { s with videoFile := some f, videoUrl := some (createObjectURL f),
             analysisResult := none, error := none }
  else
    { s with error := some invalidUploadMsg }

/-- The message the catch block extracts from a thrown value
(`err instanceof Error ? err.message : ...`, line 65). -/
def thrownMessage : Thrown → String
  | .error m => m
  | .other => unknownErrorMsg

/-- The catch block of `handleAnalyze` (lines 63-66). -/
def catchState (s : ControllerState) (e : Thrown) : ControllerState :=
  { s with error := some ("Analysis Failed: " ++ thrownMessage e) }

/-- The states produced by the extractor's progress callback
(`setExtractionProgress`, line 52), and the state once the callbacks are
done. -/
def progressRun : List ℚ → ControllerState → List ControllerState × ControllerState
  | [], s => ([], s)
  | p :: ps, s =>
    let s1 := { s with extractionProgress := p }
    let r := progressRun ps s1
    (s1 :: r.1, r.2)

/-- The try/catch body of `handleAnalyze` from the point where the
extraction call resolves (lines 55-66): the states it produces, the state
it ends in, and the argument lists `analyzeVideoFrames` was called with. -/
def tryRun (env : Env) (s : ControllerState) :
    List ControllerState × ControllerState × List (List Frame) :=
  match env.extraction with
  | .exn e =>
    let sc := catchState s e
    ([sc], sc, [])
  | .ok frames =>
    if frames.length = 0 then
      let sc := catchState s (.error zeroFramesMsg)
      ([sc], sc, [])
    else
      let s7 := { s with loadingMessage := analyzingMsg }
      match env.analysis with
      | .exn e =>
        let sc := catchState s7 e
        ([s7, sc], sc, [frames])
      | .ok r =>
        let s8 := { s7 with analysisResult := some r }
        ([s7, s8], s8, [frames])

/-- The finally block of `handleAnalyze` (lines 67-70): first
`setIsLoading(false)`, then `setLoadingMessage('')`. -/
def finallyStates (s : ControllerState) : List ControllerState :=
  let sA := { s with isLoading := false }
  let sB := { sA with loadingMessage := "" }
  [sA, sB]

/-- The outcome of one `handleAnalyze` run: all intermediate states in
program order, the state after the run, and the arguments passed to
`analyzeVideoFrames`. -/
structure RunResult where
  trace : List ControllerState
  final : ControllerState
  calls : List (List Frame)
deriving DecidableEq, Repr

/-- `handleAnalyze` (`src/App.tsx` lines 36-71).  With no file selected it
sets the error and returns early; otherwise it raises the loading flag,
clears error, result and progress, runs extraction (delivering progress
callbacks), fails on zero frames, runs analysis, stores the result, routes
any fault through the catch block, and always runs the finally block. -/
def handleAnalyze (env : Env) (s : ControllerState) : RunResult :=
  match s.videoFile with
  | none =>
    let s1 := { s with error := some noFileMsg }
    ⟨[s1], s1, []⟩
  | some _ =>
    let s1 := { s with isLoading := true }
    let s2 := { s1 with error := none }
    let s3 := { s2 with analysisResult := none }
    let s4 := { s3 with extractionProgress := 0 }
    let s5 := { s4 with loadingMessage := extractingMsg }
    let pr := progressRun env.progressEvents s5
    let tr := tryRun env pr.2
    let fin := finallyStates tr.2.1
    ⟨[s1, s2, s3, s4, s5] ++ pr.1 ++ tr.1 ++ fin,
     { tr.2.1 with isLoading := false, loadingMessage := "" },
     tr.2.2⟩

/-- The slider change handler together with its `disabled={isLoading}`
attribute (`src/App.tsx` lines 89-99): a disabled control delivers no
change events, so the event has an effect only while not loading. -/
def handleFrameCountChange (n : Nat) (s : ControllerState) : ControllerState :=
  if s.isLoading then s else { s with frameCount := n }

/-- The fault of a run, if any: an extraction fault, the zero-frames
`Error`, or an analysis fault, in the order the code can meet them. -/
def runFault (env : Env) : Option Thrown :=
  match env.extraction with
  | .exn e => some e
  | .ok frames =>
    if frames.length = 0 then some (.error zeroFramesMsg)
    else
      match env.analysis with
      | .exn e => some e
      | .ok _ => none

/-- A user event the controller can receive. -/
inductive UserEvent where
  | upload (f : DOMFile)
  | changeCount (n : Nat)
  | analyze (env : Env)

/-- One event step of the controller. -/
def step (s : ControllerState) (a : UserEvent) : ControllerState :=
  match a with
  | .upload f => handleFileUpload f s
  | .changeCount n => handleFrameCountChange n s
  | .analyze env => (handleAnalyze env s).final

/-- Run a sequence of events from a state. -/
def runActions (s : ControllerState) (as : List UserEvent) : ControllerState :=
  as.foldl step s

/-- A controller state reachable from the initial state by user events. -/
def Reachable (s : ControllerState) : Prop :=
  ∃ as, runActions initState as = s

/-- The state after the four clearing updates and the first loading
message of `handleAnalyze` (lines 42-48), before extraction resolves. -/
def afterStart (s : ControllerState) : ControllerState :=
  { s with isLoading := true, error := none, analysisResult := none,
           extractionProgress := 0, loadingMessage := extractingMsg }

/-- The state at the end of the try/catch body of a run with a selected
file, before the finally block. -/
def endTry (env : Env) (s : ControllerState) : ControllerState :=
  (tryRun env (progressRun env.progressEvents (afterStart s)).2).2.1

/-- A state at rest (no run in flight): the loading flag is down and the
status message is empty. -/
def RestState (s : ControllerState) : Prop :=
  s.isLoading = false ∧ s.loadingMessage = ""

/-- `x` agrees with `s` on every field except `extractionProgress`. -/
def AgreesExceptProgress (s x : ControllerState) : Prop :=
  x.videoFile = s.videoFile ∧ x.videoUrl = s.videoUrl ∧
  x.analysisResult = s.analysisResult ∧ x.isLoading = s.isLoading ∧
  x.loadingMessage = s.loadingMessage ∧ x.error = s.error ∧
  x.frameCount = s.frameCount

/-- `x` agrees with `s` on the fields the try/catch body never writes. -/
def AgreesOnFixed (s x : ControllerState) : Prop :=
  x.videoFile = s.videoFile ∧ x.videoUrl = s.videoUrl ∧
  x.isLoading = s.isLoading ∧ x.frameCount = s.frameCount ∧
  x.extractionProgress = s.extractionProgress

/-- A sample video file. -/
def goodFile : DOMFile := ⟨"a.mp4", "video/mp4"⟩

/-- A sample non-video file. -/
def badFile : DOMFile := ⟨"n.txt", "text/plain"⟩

/-- A sample analysis result. -/
def sampleResult : AnalysisResult := ⟨"T", "S", ["a"], [⟨"0:02", "x"⟩]⟩

/-- An environment in which extraction yields one frame and analysis
succeeds with `sampleResult`. -/
def goodEnv : Env := ⟨.ok ["frame0"], [1], .ok sampleResult⟩

/-- Upload a video, analyze it successfully, then upload a non-video
file. -/
def cexEvents : List UserEvent :=
  [.upload goodFile, .analyze goodEnv, .upload badFile]

/-- The controller state after `cexEvents`. -/
def cexState : ControllerState := runActions initState cexEvents

/-- A state with a run in flight. -/
def loadedState : ControllerState := { initState with isLoading := true }

/-! ### Helper lemmas -/

/-- The progress callbacks only change `extractionProgress`: the state they
leave behind, and every intermediate state, agrees with the start state on
all other fields. -/
theorem progressRun_agrees (ps : List ℚ) (s : ControllerState) :
    AgreesExceptProgress s (progressRun ps s).2 ∧
    ∀ x ∈ (progressRun ps s).1, AgreesExceptProgress s x := by
  induction ps generalizing s with
  | nil => simp [progressRun, AgreesExceptProgress]
  | cons p ps ih =>
    obtain ⟨h2, h3⟩ := ih { s with extractionProgress := p }
    simp only [AgreesExceptProgress] at h2 h3 ⊢
    simp only [progressRun, List.mem_cons]
    refine ⟨by simpa using h2, ?_⟩
    intro x hx
    rcases hx with rfl | hx
    · simp
    · simpa using h3 x hx

/-- The try/catch body only writes `loadingMessage`, `error` and
`analysisResult`. -/
theorem tryRun_agrees (env : Env) (s : ControllerState) :
    AgreesOnFixed s (tryRun env s).2.1 ∧
    ∀ x ∈ (tryRun env s).1, AgreesOnFixed s x := by
  rcases env with ⟨ext, ps, ana⟩
  cases ext with
  | exn e => simp [tryRun, catchState, AgreesOnFixed]
  | ok frames =>
    by_cases h : frames.length = 0
    · simp [tryRun, h, catchState, AgreesOnFixed]
    · cases ana with
      | exn e => simp [tryRun, h, catchState, AgreesOnFixed]
      | ok r => simp [tryRun, h, AgreesOnFixed]

/-- On a faulting run, the try/catch body ends with the catch message in
`error` and `analysisResult` untouched. -/
theorem tryRun_end_fault (env : Env) (s : ControllerState) (e : Thrown)
    (he : runFault env = some e) :
    (tryRun env s).2.1.error = some ("Analysis Failed: " ++ thrownMessage e) ∧
    (tryRun env s).2.1.analysisResult = s.analysisResult := by
  rcases env with ⟨ext, ps, ana⟩
  cases ext with
  | exn e0 =>
    simp only [runFault, Option.some.injEq] at he
    subst he
    simp [tryRun, catchState]
  | ok frames =>
    by_cases h : frames.length = 0
    · simp only [runFault, h, if_true, Option.some.injEq] at he
      subst he
      simp [tryRun, catchState, h]
    · cases ana with
      | exn e0 =>
        simp only [runFault, h, if_false, Option.some.injEq] at he
        subst he
        simp [tryRun, catchState, h]
      | ok r => simp [runFault, h] at he

/-- On a fault-free run, the try/catch body stores the analysis result and
leaves `error` untouched. -/
theorem tryRun_end_ok (env : Env) (s : ControllerState) (r : AnalysisResult)
    (ha : env.analysis = .ok r) (he : runFault env = none) :
    (tryRun env s).2.1.analysisResult = some r ∧
    (tryRun env s).2.1.error = s.error := by
  rcases env with ⟨ext, ps, ana⟩
  cases ext with
  | exn e0 => simp [runFault] at he
  | ok frames =>
    by_cases h : frames.length = 0
    · simp [runFault, h] at he
    · simp only at ha
      simp [tryRun, h, ha]

/-! ### Claims about the upload handler -/

/-- C5: uploading a file whose MIME type does not start with `video/`
leaves `videoFile` and `videoUrl` unchanged and sets the invalid-upload
error, from any state. -/
theorem upload_invalid_keeps_file (f : DOMFile) (s : ControllerState)
    (h : jsStartsWith f.type "video/" = false) :
    (handleFileUpload f s).videoFile = s.videoFile ∧
    (handleFileUpload f s).videoUrl = s.videoUrl ∧
    (handleFileUpload f s).error = some invalidUploadMsg := by
  simp [handleFileUpload, h]

/-- C5 witness. -/
theorem upload_invalid_keeps_file_witness :
    jsStartsWith (⟨"n.txt", "text/plain"⟩ : DOMFile).type "video/" = false ∧
    ((handleFileUpload ⟨"n.txt", "text/plain"⟩ initState).videoFile = initState.videoFile ∧
     (handleFileUpload ⟨"n.txt", "text/plain"⟩ initState).videoUrl = initState.videoUrl ∧
     (handleFileUpload ⟨"n.txt", "text/plain"⟩ initState).error = some invalidUploadMsg) :=
  ⟨by decide, upload_invalid_keeps_file ⟨"n.txt", "text/plain"⟩ initState (by decide)⟩

/-- C6: uploading a file whose MIME type starts with `video/`, from any
non-in-flight state, stores the file, stores a preview URL derived from
it, and clears both the prior result and the prior error. -/
theorem upload_valid_stores_file (f : DOMFile) (s : ControllerState)
    (h : jsStartsWith f.type "video/" = true) (hl : s.isLoading = false) :
    (handleFileUpload f s).videoFile = some f ∧
    (handleFileUpload f s).videoUrl = some (createObjectURL f) ∧
    (handleFileUpload f s).analysisResult = none ∧
    (handleFileUpload f s).error = none := by
  simp [handleFileUpload, h]

/-- C6 witness. -/
theorem upload_valid_stores_file_witness :
    jsStartsWith (⟨"a.mp4", "video/mp4"⟩ : DOMFile).type "video/" = true ∧
    initState.isLoading = false ∧
    ((handleFileUpload ⟨"a.mp4", "video/mp4"⟩ initState).videoFile = some ⟨"a.mp4", "video/mp4"⟩ ∧
     (handleFileUpload ⟨"a.mp4", "video/mp4"⟩ initState).videoUrl = some (createObjectURL ⟨"a.mp4", "video/mp4"⟩) ∧
     (handleFileUpload ⟨"a.mp4", "video/mp4"⟩ initState).analysisResult = none ∧
     (handleFileUpload ⟨"a.mp4", "video/mp4"⟩ initState).error = none) :=
  ⟨by decide, by decide,
   upload_valid_stores_file ⟨"a.mp4", "video/mp4"⟩ initState (by decide) (by decide)⟩

/-! ### Claims about the analyze handler -/

/-- C4: triggering `handleAnalyze` in a state with no selected video file
sets the precondition-failure error and returns with the loading flag
still false and every other field unchanged. -/
theorem analyze_no_file (env : Env) (s : ControllerState)
    (hf : s.videoFile = none) (hl : s.isLoading = false) :
    (handleAnalyze env s).final = { s with error := some noFileMsg } ∧
    (handleAnalyze env s).final.isLoading = false ∧
    (handleAnalyze env s).final.error = some noFileMsg ∧
    (handleAnalyze env s).final.videoFile = s.videoFile ∧
    (handleAnalyze env s).final.videoUrl = s.videoUrl ∧
    (handleAnalyze env s).final.analysisResult = s.analysisResult ∧
    (handleAnalyze env s).final.frameCount = s.frameCount ∧
    (handleAnalyze env s).final.extractionProgress = s.extractionProgress := by
  simp [handleAnalyze, hf, hl]

/-- C4 witness. -/
theorem analyze_no_file_witness :
    initState.videoFile = none ∧ initState.isLoading = false ∧
    (handleAnalyze ⟨.ok [], [], .exn .other⟩ initState).final
      = { initState with error := some noFileMsg } :=
  ⟨rfl, rfl, (analyze_no_file ⟨.ok [], [], .exn .other⟩ initState rfl rfl).1⟩

/-- On a run with a selected file, the state after the run is the end of
the try/catch body with the loading flag and the message cleared. -/
theorem handleAnalyze_final_eq (env : Env) (s : ControllerState) (f : DOMFile)
    (hf : s.videoFile = some f) :
    (handleAnalyze env s).final
      = { endTry env s with isLoading := false, loadingMessage := "" } := by
  simp [handleAnalyze, hf, endTry, afterStart]

/-- On a run with a selected file, the calls to `analyzeVideoFrames` are
those of the try body. -/
theorem handleAnalyze_calls_eq (env : Env) (s : ControllerState) (f : DOMFile)
    (hf : s.videoFile = some f) :
    (handleAnalyze env s).calls
      = (tryRun env (progressRun env.progressEvents (afterStart s)).2).2.2 := by
  simp [handleAnalyze, hf, afterStart]

/-- On a run with a selected file, the trace decomposes into the five
start updates, the progress updates, the try body and the finally
block. -/
theorem handleAnalyze_trace_eq (env : Env) (s : ControllerState) (f : DOMFile)
    (hf : s.videoFile = some f) :
    (handleAnalyze env s).trace
      = ([{ s with isLoading := true },
          { s with isLoading := true, error := none },
          { s with isLoading := true, error := none, analysisResult := none },
          { s with isLoading := true, error := none, analysisResult := none,
                   extractionProgress := 0 },
          afterStart s]
         ++ (progressRun env.progressEvents (afterStart s)).1
         ++ (tryRun env (progressRun env.progressEvents (afterStart s)).2).1)
        ++ finallyStates (endTry env s) := by
  simp [handleAnalyze, hf, endTry, afterStart, finallyStates, List.append_assoc]

/-- The end of the try/catch body keeps the file, the URL, the raised
loading flag and the frame count of the state that entered the run. -/
theorem endTry_agrees (env : Env) (s : ControllerState) :
    (endTry env s).videoFile = s.videoFile ∧
    (endTry env s).videoUrl = s.videoUrl ∧
    (endTry env s).isLoading = true ∧
    (endTry env s).frameCount = s.frameCount := by
  obtain ⟨hp, -⟩ := progressRun_agrees env.progressEvents (afterStart s)
  obtain ⟨ht, -⟩ := tryRun_agrees env (progressRun env.progressEvents (afterStart s)).2
  obtain ⟨a1, a2, a3, a4, a5, a6, a7⟩ := hp
  obtain ⟨b1, b2, b3, b4, b5⟩ := ht
  exact ⟨b1.trans (a1.trans (by simp [afterStart])),
         b2.trans (a2.trans (by simp [afterStart])),
         b3.trans (a4.trans (by simp [afterStart])),
         b4.trans (a7.trans (by simp [afterStart]))⟩

/-- On a faulting run, the end of the try/catch body carries the catch
message and no result. -/
theorem endTry_fault (env : Env) (s : ControllerState) (e : Thrown)
    (he : runFault env = some e) :
    (endTry env s).error = some ("Analysis Failed: " ++ thrownMessage e) ∧
    (endTry env s).analysisResult = none := by
  obtain ⟨h1, h2⟩ :=
    tryRun_end_fault env (progressRun env.progressEvents (afterStart s)).2 e he
  obtain ⟨hp, -⟩ := progressRun_agrees env.progressEvents (afterStart s)
  obtain ⟨a1, a2, a3, a4, a5, a6, a7⟩ := hp
  refine ⟨h1, ?_⟩
  simp only [endTry]
  rw [h2, a3]
  simp [afterStart]

/-- On a fault-free run, the end of the try/catch body carries the
analysis result and no error. -/
theorem endTry_ok (env : Env) (s : ControllerState) (r : AnalysisResult)
    (ha : env.analysis = .ok r) (he : runFault env = none) :
    (endTry env s).analysisResult = some r ∧
    (endTry env s).error = none := by
  obtain ⟨h1, h2⟩ :=
    tryRun_end_ok env (progressRun env.progressEvents (afterStart s)).2 r ha he
  obtain ⟨hp, -⟩ := progressRun_agrees env.progressEvents (afterStart s)
  obtain ⟨a1, a2, a3, a4, a5, a6, a7⟩ := hp
  refine ⟨h1, ?_⟩
  simp only [endTry]
  rw [h2, a6]
  simp [afterStart]

/-- A fault-free run has a nonempty extraction and a successful
analysis. -/
theorem runFault_none (env : Env) (he : runFault env = none) :
    ∃ frames r, env.extraction = .ok frames ∧ frames.length ≠ 0 ∧
      env.analysis = .ok r := by
  rcases env with ⟨ext, ps, ana⟩
  cases ext with
  | exn e => simp [runFault] at he
  | ok frames =>
    by_cases h : frames.length = 0
    · simp [runFault, h] at he
    · cases ana with
      | exn e => simp [runFault, h] at he
      | ok r => exact ⟨frames, r, rfl, h, rfl⟩

/-- The try body never calls the analysis client with an empty frame
list, and does not call it at all when extraction yields zero frames. -/
theorem tryRun_calls (env : Env) (s : ControllerState) :
    (∀ c ∈ (tryRun env s).2.2, c.length ≠ 0) ∧
    (env.extraction = .ok [] → (tryRun env s).2.2 = []) := by
  rcases env with ⟨ext, ps, ana⟩
  cases ext with
  | exn e => simp [tryRun]
  | ok frames =>
    by_cases h : frames.length = 0
    · simp [tryRun, h]
    · have hne : frames ≠ [] := by
        intro h0
        rw [h0] at h
        exact h rfl
      cases ana with
      | exn e =>
        refine ⟨?_, ?_⟩
        · intro c hc
          simp [tryRun, h] at hc
          subst hc
          exact h
        · intro hx
          exact absurd (by injection hx) hne
      | ok r =>
        refine ⟨?_, ?_⟩
        · intro c hc
          simp [tryRun, h] at hc
          subst hc
          exact h
        · intro hx
          exact absurd (by injection hx) hne

/-- C3: whenever a run of `handleAnalyze` with a selected file faults
during extraction or analysis (any throw, including the zero-frames
throw), the run ends with the user-visible error set to the string
`Analysis Failed: ` followed by the fault's message, the loading flag
cleared, and `analysisResult` null. -/
theorem analyze_fault_terminal (env : Env) (s : ControllerState) (f : DOMFile)
    (e : Thrown) (hf : s.videoFile = some f) (he : runFault env = some e) :
    (handleAnalyze env s).final.error
      = some ("Analysis Failed: " ++ thrownMessage e) ∧
    (handleAnalyze env s).final.isLoading = false ∧
    (handleAnalyze env s).final.analysisResult = none := by
  obtain ⟨h1, h2⟩ := endTry_fault env s e he
  rw [handleAnalyze_final_eq env s f hf]
  exact ⟨by simpa using h1, by simp, by simpa using h2⟩

/-- C3 witness: a run whose extraction throws an `Error` with message
`boom`. -/
theorem analyze_fault_terminal_witness :
    (handleFileUpload goodFile initState).videoFile = some goodFile ∧
    runFault ⟨.exn (.error "boom"), [], .ok sampleResult⟩ = some (.error "boom") ∧
    ((handleAnalyze ⟨.exn (.error "boom"), [], .ok sampleResult⟩
        (handleFileUpload goodFile initState)).final.error
      = some ("Analysis Failed: " ++ thrownMessage (.error "boom")) ∧
     (handleAnalyze ⟨.exn (.error "boom"), [], .ok sampleResult⟩
        (handleFileUpload goodFile initState)).final.isLoading = false ∧
     (handleAnalyze ⟨.exn (.error "boom"), [], .ok sampleResult⟩
        (handleFileUpload goodFile initState)).final.analysisResult = none) :=
  ⟨by decide, rfl,
   analyze_fault_terminal ⟨.exn (.error "boom"), [], .ok sampleResult⟩
     (handleFileUpload goodFile initState) goodFile (.error "boom")
     (by decide) rfl⟩

/-- C2: a run of `handleAnalyze` never passes an empty frame list to
`analyzeVideoFrames`, and when extraction resolves with zero frames the
client is not called at all, no result is produced, and the run ends
failed: the error is set (to the zero-frames message behind the
`Analysis Failed: ` marker) and the loading flag is cleared. -/
theorem analyze_zero_frames (env : Env) (s : ControllerState) (f : DOMFile)
    (hf : s.videoFile = some f) :
    (∀ c ∈ (handleAnalyze env s).calls, c.length ≠ 0) ∧
    (env.extraction = .ok [] →
      (handleAnalyze env s).calls = [] ∧
      (handleAnalyze env s).final.analysisResult = none ∧
      (handleAnalyze env s).final.error
        = some ("Analysis Failed: " ++ zeroFramesMsg) ∧
      (handleAnalyze env s).final.isLoading = false) := by
  obtain ⟨hc1, hc2⟩ := tryRun_calls env (progressRun env.progressEvents (afterStart s)).2
  rw [handleAnalyze_calls_eq env s f hf]
  refine ⟨hc1, fun he => ?_⟩
  have hfa : runFault env = some (.error zeroFramesMsg) := by simp [runFault, he]
  obtain ⟨h1, h2⟩ := endTry_fault env s (.error zeroFramesMsg) hfa
  rw [handleAnalyze_final_eq env s f hf]
  refine ⟨hc2 he, by simpa using h2, ?_, by simp⟩
  simpa [thrownMessage] using h1

/-- C2 witness: a run whose extraction resolves with zero frames. -/
theorem analyze_zero_frames_witness :
    (handleFileUpload goodFile initState).videoFile = some goodFile ∧
    ((handleAnalyze ⟨.ok [], [], .ok sampleResult⟩
        (handleFileUpload goodFile initState)).calls = [] ∧
     (handleAnalyze ⟨.ok [], [], .ok sampleResult⟩
        (handleFileUpload goodFile initState)).final.analysisResult = none ∧
     (handleAnalyze ⟨.ok [], [], .ok sampleResult⟩
        (handleFileUpload goodFile initState)).final.error
       = some ("Analysis Failed: " ++ zeroFramesMsg) ∧
     (handleAnalyze ⟨.ok [], [], .ok sampleResult⟩
        (handleFileUpload goodFile initState)).final.isLoading = false) :=
  ⟨by decide,
   (analyze_zero_frames ⟨.ok [], [], .ok sampleResult⟩
     (handleFileUpload goodFile initState) goodFile (by decide)).2 rfl⟩

/-- C1 counterexample: the claimed invariant fails on a reachable state.
Uploading a video, analysing it successfully, and then uploading a
non-video file reaches a state in which `analysisResult` and `error` are
both non-null, because the invalid-upload branch of `handleFileUpload`
sets the error without clearing the prior result. -/
theorem reachable_both_set :
    Reachable cexState ∧
    ¬(cexState.analysisResult = none ∨ cexState.error = none) :=
  ⟨⟨cexEvents, rfl⟩, by decide⟩

/-- C1 (amended): after any completed run of `handleAnalyze` with a file
selected, exactly one of `analysisResult` and `error` is non-null, and a
valid (video) upload clears both; an invalid upload, however, sets the
error while keeping a prior result. -/
theorem analyze_exactly_one (env : Env) (s : ControllerState) (f : DOMFile)
    (hf : s.videoFile = some f) :
    (((handleAnalyze env s).final.analysisResult ≠ none ∧
      (handleAnalyze env s).final.error = none) ∨
     ((handleAnalyze env s).final.analysisResult = none ∧
      (handleAnalyze env s).final.error ≠ none)) ∧
    (∀ g : DOMFile, jsStartsWith g.type "video/" = true →
      (handleFileUpload g s).analysisResult = none ∧
      (handleFileUpload g s).error = none) := by
  constructor
  · rw [handleAnalyze_final_eq env s f hf]
    cases hfa : runFault env with
    | some e =>
      obtain ⟨h1, h2⟩ := endTry_fault env s e hfa
      right
      exact ⟨by simpa using h2, by simp [h1]⟩
    | none =>
      obtain ⟨frames, r, hext, hlen, ha⟩ := runFault_none env hfa
      obtain ⟨h1, h2⟩ := endTry_ok env s r ha hfa
      left
      exact ⟨by simp [h1], by simpa using h2⟩
  · intro g hg
    simp [handleFileUpload, hg]

/-- C1 (amended) witness: a successful run from a file-selected state. -/
theorem analyze_exactly_one_witness :
    (handleFileUpload goodFile initState).videoFile = some goodFile ∧
    (((handleAnalyze goodEnv (handleFileUpload goodFile initState)).final.analysisResult ≠ none ∧
      (handleAnalyze goodEnv (handleFileUpload goodFile initState)).final.error = none) ∨
     ((handleAnalyze goodEnv (handleFileUpload goodFile initState)).final.analysisResult = none ∧
      (handleAnalyze goodEnv (handleFileUpload goodFile initState)).final.error ≠ none)) :=
  ⟨by decide,
   (analyze_exactly_one goodEnv (handleFileUpload goodFile initState) goodFile (by decide)).1⟩

/-- Every state in the trace of a run keeps the selected file, the
preview URL and the frame count of the starting state; so does the state
after the run. -/
theorem analyze_trace_fixed (env : Env) (s : ControllerState) :
    (∀ x ∈ (handleAnalyze env s).trace,
      x.videoFile = s.videoFile ∧ x.videoUrl = s.videoUrl ∧
      x.frameCount = s.frameCount) ∧
    ((handleAnalyze env s).final.videoFile = s.videoFile ∧
     (handleAnalyze env s).final.videoUrl = s.videoUrl ∧
     (handleAnalyze env s).final.frameCount = s.frameCount) := by
  cases hv : s.videoFile with
  | none => simp [handleAnalyze, hv]
  | some f =>
    obtain ⟨e1, e2, e3, e4⟩ := endTry_agrees env s
    constructor
    · intro x hx
      rw [handleAnalyze_trace_eq env s f hv] at hx
      obtain ⟨hp2, hpm⟩ := progressRun_agrees env.progressEvents (afterStart s)
      obtain ⟨ht2, htm⟩ := tryRun_agrees env (progressRun env.progressEvents (afterStart s)).2
      simp only [List.mem_append, List.mem_cons, List.not_mem_nil, or_false] at hx
      rcases hx with (((rfl | rfl | rfl | rfl | rfl) | hx) | hx) | hx
      · exact ⟨hv, rfl, rfl⟩
      · exact ⟨hv, rfl, rfl⟩
      · exact ⟨hv, rfl, rfl⟩
      · exact ⟨hv, rfl, rfl⟩
      · simp [afterStart, hv]
      · obtain ⟨p1, p2, -, -, -, -, p7⟩ := hpm x hx
        rw [p1, p2, p7]
        simp [afterStart, hv]
      · obtain ⟨t1, t2, -, t4, -⟩ := htm x hx
        obtain ⟨q1, q2, -, -, -, -, q7⟩ := hp2
        rw [t1, t2, t4, q1, q2, q7]
        simp [afterStart, hv]
      · simp only [finallyStates, List.mem_cons, List.not_mem_nil, or_false] at hx
        rcases hx with rfl | rfl
        · exact ⟨by simp [e1, hv], by simpa using e2, by simpa using e4⟩
        · exact ⟨by simp [e1, hv], by simpa using e2, by simpa using e4⟩
    · rw [handleAnalyze_final_eq env s f hv]
      exact ⟨by simp [e1, hv], by simpa using e2, by simpa using e4⟩

/-- A state at rest stays at rest across any single controller event. -/
theorem step_rest (s : ControllerState) (a : UserEvent) (h : RestState s) :
    RestState (step s a) := by
  obtain ⟨h1, h2⟩ := h
  cases a with
  | upload f =>
    by_cases hg : jsStartsWith f.type "video/" = true
    · simp [step, handleFileUpload, hg, RestState, h1, h2]
    · simp only [Bool.not_eq_true] at hg
      simp [step, handleFileUpload, hg, RestState, h1, h2]
  | changeCount n => simp [step, handleFrameCountChange, h1, RestState, h2]
  | analyze env =>
    cases hv : s.videoFile with
    | none => simp [step, handleAnalyze, hv, RestState, h1, h2]
    | some f =>
      have hfin := handleAnalyze_final_eq env s f hv
      simp [step, hfin, RestState]

/-- A state at rest stays at rest across any sequence of events. -/
theorem runActions_rest (as : List UserEvent) (s : ControllerState)
    (h : RestState s) : RestState (runActions s as) := by
  induction as generalizing s with
  | nil => simpa [runActions] using h
  | cons a as ih =>
    simpa [runActions, List.foldl] using ih (step s a) (step_rest s a h)

/-- C10: in every reachable controller state, whenever the loading flag
is false the loading message is the empty string: the initial state has
both cleared and every event either leaves both alone, or (a run with a
file) ends with the flag down and the message cleared together. -/
theorem rest_no_message (s : ControllerState) (h : Reachable s)
    (hl : s.isLoading = false) : s.loadingMessage = "" := by
  obtain ⟨as, rfl⟩ := h
  exact (runActions_rest as initState ⟨rfl, rfl⟩).2

/-- C10 witness: the state reached by the counterexample events of C1 is
at rest with an empty message. -/
theorem rest_no_message_witness :
    Reachable cexState ∧ cexState.isLoading = false ∧
    cexState.loadingMessage = "" :=
  ⟨⟨cexEvents, rfl⟩, by decide, rest_no_message cexState ⟨cexEvents, rfl⟩ (by decide)⟩

/-- C9: a run of `handleAnalyze` never modifies the selected file or its
preview URL: every intermediate state of the run and the state after the
run, successful or failed, carry the starting `videoFile` and
`videoUrl`. -/
theorem analyze_preserves_file (env : Env) (s : ControllerState) :
    (∀ x ∈ (handleAnalyze env s).trace,
      x.videoFile = s.videoFile ∧ x.videoUrl = s.videoUrl) ∧
    (handleAnalyze env s).final.videoFile = s.videoFile ∧
    (handleAnalyze env s).final.videoUrl = s.videoUrl := by
  obtain ⟨hm, hf1, hf2, hf3⟩ := analyze_trace_fixed env s
  exact ⟨fun x hx => ⟨(hm x hx).1, (hm x hx).2.1⟩, hf1, hf2⟩

/-- C9 witness: the first trace state of a successful run keeps the file
and the URL. -/
theorem analyze_preserves_file_witness :
    ({ handleFileUpload goodFile initState with isLoading := true }
        ∈ (handleAnalyze goodEnv (handleFileUpload goodFile initState)).trace) ∧
    ({ handleFileUpload goodFile initState with isLoading := true }.videoFile
        = (handleFileUpload goodFile initState).videoFile ∧
     { handleFileUpload goodFile initState with isLoading := true }.videoUrl
        = (handleFileUpload goodFile initState).videoUrl) ∧
    (handleAnalyze goodEnv (handleFileUpload goodFile initState)).final.videoFile
        = (handleFileUpload goodFile initState).videoFile :=
  ⟨by decide,
   (analyze_preserves_file goodEnv (handleFileUpload goodFile initState)).1 _ (by decide),
   (analyze_preserves_file goodEnv (handleFileUpload goodFile initState)).2.1⟩

/-- C8: while a run is in flight the requested frame count cannot change:
a change event on a loading state is rejected (the control is disabled),
and every state during a run, as well as the state after it, carries the
frame count the run started with. -/
theorem frameCount_in_flight (env : Env) (s : ControllerState) (n : Nat) :
    (s.isLoading = true → handleFrameCountChange n s = s) ∧
    (∀ x ∈ (handleAnalyze env s).trace, x.frameCount = s.frameCount) ∧
    (handleAnalyze env s).final.frameCount = s.frameCount := by
  obtain ⟨hm, hf1, hf2, hf3⟩ := analyze_trace_fixed env s
  exact ⟨fun h => by simp [handleFrameCountChange, h],
         fun x hx => (hm x hx).2.2, hf3⟩

/-- C8 witness: a change event on a loading state is a no-op, and a run
ends with the frame count it started with. -/
theorem frameCount_in_flight_witness :
    loadedState.isLoading = true ∧
    handleFrameCountChange 7 loadedState = loadedState ∧
    (handleAnalyze goodEnv loadedState).final.frameCount
      = loadedState.frameCount :=
  ⟨rfl, (frameCount_in_flight goodEnv loadedState 7).1 rfl,
   (frameCount_in_flight goodEnv loadedState 7).2.2⟩

/-- C7: in every run of `handleAnalyze` with a file selected, started at
rest, the loading flag is raised by the first state update, stays raised
through the extracting and analyzing phases, and is down in the states
produced by the finally block and after the run, whether it ends done or
failed. -/
theorem analyze_loading_window (env : Env) (s : ControllerState) (f : DOMFile)
    (hf : s.videoFile = some f) (hl : s.isLoading = false) :
    ∃ pre fin,
      (handleAnalyze env s).trace = pre ++ fin ∧ pre ≠ [] ∧ fin ≠ [] ∧
      (∀ x ∈ pre, x.isLoading = true) ∧
      (∀ x ∈ fin, x.isLoading = false) ∧
      (handleAnalyze env s).final.isLoading = false := by
  refine ⟨[{ s with isLoading := true },
           { s with isLoading := true, error := none },
           { s with isLoading := true, error := none, analysisResult := none },
           { s with isLoading := true, error := none, analysisResult := none,
                    extractionProgress := 0 },
           afterStart s]
          ++ (progressRun env.progressEvents (afterStart s)).1
          ++ (tryRun env (progressRun env.progressEvents (afterStart s)).2).1,
         finallyStates (endTry env s),
         handleAnalyze_trace_eq env s f hf, by simp, by simp [finallyStates],
         ?_, ?_, ?_⟩
  · intro x hx
    obtain ⟨hp2, hpm⟩ := progressRun_agrees env.progressEvents (afterStart s)
    obtain ⟨ht2, htm⟩ := tryRun_agrees env (progressRun env.progressEvents (afterStart s)).2
    simp only [List.mem_append, List.mem_cons, List.not_mem_nil, or_false] at hx
    rcases hx with ((rfl | rfl | rfl | rfl | rfl) | hx) | hx
    · rfl
    · rfl
    · rfl
    · rfl
    · simp [afterStart]
    · obtain ⟨-, -, -, p4, -, -, -⟩ := hpm x hx
      rw [p4]
      simp [afterStart]
    · obtain ⟨-, -, t3, -, -⟩ := htm x hx
      obtain ⟨-, -, -, q4, -, -, -⟩ := hp2
      rw [t3, q4]
      simp [afterStart]
  · intro x hx
    simp only [finallyStates, List.mem_cons, List.not_mem_nil, or_false] at hx
    rcases hx with rfl | rfl
    · rfl
    · rfl
  · rw [handleAnalyze_final_eq env s f hf]

/-- C7 witness: a successful run from a file-selected rest state ends
with the loading flag down. -/
theorem analyze_loading_window_witness :
    (handleFileUpload goodFile initState).videoFile = some goodFile ∧
    (handleFileUpload goodFile initState).isLoading = false ∧
    (handleAnalyze goodEnv (handleFileUpload goodFile initState)).final.isLoading
      = false := by
  refine ⟨by decide, by decide, ?_⟩
  obtain ⟨pre, fin, -, -, -, -, -, h6⟩ :=
    analyze_loading_window goodEnv (handleFileUpload goodFile initState)
      goodFile (by decide) (by decide)
  exact h6
